import Mathlib

/-!
Verification of the "largest" tool of cpp-cli-toolbox.

This file gives a shallow embedding, in Lean 4, of the core of the
largest-files finder: the top-K size selector built on
std::priority_queue, the wildcard filename matcher, the three revisions
of the size formatter, the two walker revisions (the
recursive_directory_iterator walker and the explicit-stack walker), and
the argument parsing / root validation of main.  Machine integers are
modelled as Nat/Int; the IEEE binary64 arithmetic of the double-based
formatter revision is modelled exactly with unreduced fractions of
naturals and round-to-nearest-even at 53 significant bits.
-/

namespace CppCliToolbox

/-- FileEntry of largest.cpp: a discovered file together with the size
captured at discovery time (`struct FileEntry { directory_entry entry; uintmax_t size; }`). -/
structure FileEntry where
  path : String
  size : Nat
deriving Repr, DecidableEq

/-- Pop order of `std::priority_queue<FileEntry>` with
`operator<` comparing `size < other.size` (a max-heap: `top()` is an
entry of maximal size).  The queue is modelled by the descending
sequence in which `pop()` returns its elements; `push` inserts into
that sequence.  C++ leaves the relative order of equal sizes
unspecified; this model fixes ties in insertion order. -/
def heapPush (e : FileEntry) : List FileEntry → List FileEntry
  | [] => [e]
  | a :: t => if a.size < e.size then e :: a :: t else a :: heapPush e t

/-- One offer step of listLargestFiles (part_002 lines 121-128, identical in
part_003 revision B lines 401-408):
`if (numFiles == -1) heap.push(...); else if (heap.size() < (size_t)numFiles)
heap.push(...); else if (size > heap.top().size) { heap.pop(); heap.push(...); }`.
Note that `heap.top()` is the LARGEST retained entry under this comparator.
With `numFiles = 0` the source calls `heap.top()` on an empty queue
(undefined behaviour); that branch is modelled as a no-op and is
unreachable for the capacities the claims quantify over. -/
def offer (numFiles : Int) (h : List FileEntry) (e : FileEntry) : List FileEntry :=
  if numFiles = -1 then heapPush e h
  else if h.length < numFiles.toNat then heapPush e h
  else
    match h with
    | [] => h
    | top :: rest => if top.size < e.size then heapPush e rest else h

/-- Folding the offer step over the stream of candidates, starting from the
empty queue, exactly as the walk loop of listLargestFiles does. -/
def selectTopN (numFiles : Int) (es : List FileEntry) : List FileEntry :=
  es.foldl (offer numFiles) []

/-- Output phase of part_002 (lines 181-201): the heap is popped into a
vector (already descending for the max-heap), then printed under the guard
`numFiles == -1 || count < numFiles`, i.e. at most `numFiles` entries. -/
def resultsOf (numFiles : Int) (h : List FileEntry) : List FileEntry :=
  if numFiles = -1 then h else h.take numFiles.toNat

/-- Results of a whole selector run. -/
def runResults (numFiles : Int) (es : List FileEntry) : List FileEntry :=
  resultsOf numFiles (selectTopN numFiles es)

/-!
Filename matcher, from part_002 lines 50-68 (identical in part_003
revision B lines 299-317).  The source builds an ECMAScript regex from
the mask: it escapes the characters `. ^ $ | ( ) [ ] \x7b \x7d \`
(regex `[.^$|()\[\]\x7b\x7d\\]` replaced by `\$&`), rewrites `*` to
`.*` and `?` to `.`, anchors with `^...$`, and matches with
`std::regex_constants::icase`; on regex_error it falls back to
`filename.find(mask) != npos`.  The regexes reachable from that
construction are sequences of: literal characters (the escaped ones and
every unescaped non-special character), `.` (from `?`), `.*` (from
`*`), and the quantifier `+`, which the escape set does NOT cover and
which therefore keeps its one-or-more meaning, applied to the preceding
atom (a `+` with no preceding atom or following another quantifier is an
ECMAScript syntax error, hence regex_error, hence the fallback).  The
embedding builds that regex directly from the mask.
-/

/-- Items of the regex that matchesFileMask builds from a mask. -/
inductive RItem where
  | lit (c : Char)
  | dot
  | star (b : RItem)
  | plus (b : RItem)
deriving Repr, DecidableEq

/-- Quantified items cannot take a further `+` (ECMAScript rejects
`.*+` and `a++` as syntax errors). -/
def RItem.isQuant : RItem → Bool
  | .star _ => true
  | .plus _ => true
  | _ => false

/-- One mask character, turned into regex items as the three
regex_replace passes of the source do: `*` becomes `.*`, `?` becomes
`.`, an unescaped `+` quantifies the preceding atom (or makes the regex
invalid), every other character is literal (the escape pass makes the
regex-special ones literal). -/
def maskStep (acc : Option (List RItem)) (c : Char) : Option (List RItem) :=
  match acc with
  | none => none
  | some items =>
    if c = '*' then some (items ++ [.star .dot])
    else if c = '?' then some (items ++ [.dot])
    else if c = '+' then
      match items.getLast? with
      | none => none
      | some last => if last.isQuant then none else some (items.dropLast ++ [.plus last])
    else some (items ++ [.lit c])

/-- The regex built from a whole mask; `none` means regex construction
fails (regex_error in the source). -/
def maskToRegex (mask : String) : Option (List RItem) :=
  mask.toList.foldl maskStep (some [])

/-- Whether a single atom matches a single character, under
`regex_constants::icase` (case-insensitive). -/
def atomMatch : RItem → Char → Bool
  | .lit p, c => p.toLower == c.toLower
  | .dot, _ => true
  | .star _, _ => false
  | .plus _, _ => false

/-- Anchored whole-string matching of the regex item list, the meaning
of `std::regex_match` on the constructed `^...$` pattern. -/
def rmatch : List RItem → List Char → Bool
  | [], cs => cs.isEmpty
  | .lit p :: ps, cs =>
    match cs with
    | [] => false
    | c :: cs' => atomMatch (.lit p) c && rmatch ps cs'
  | .dot :: ps, cs =>
    match cs with
    | [] => false
    | _ :: cs' => rmatch ps cs'
  | .star b :: ps, cs =>
    rmatch ps cs ||
      match cs with
      | [] => false
      | c :: cs' => atomMatch b c && rmatch (.star b :: ps) cs'
  | .plus b :: ps, cs =>
    match cs with
    | [] => false
    | c :: cs' => atomMatch b c && rmatch (.star b :: ps) cs'
termination_by items cs => (cs.length, items.length)

/-- Whether `pat` starts the list `cs` (case-sensitive, for the
fallback of the matcher). -/
def startsList : List Char → List Char → Bool
  | _, [] => true
  | [], _ :: _ => false
  | c :: cs, p :: ps => c == p && startsList cs ps

/-- Substring containment, the meaning of
`filename.find(mask) != std::string::npos` in the fallback branch. -/
def containsSub (cs pat : List Char) : Bool :=
  match cs with
  | [] => pat.isEmpty
  | _ :: t => startsList cs pat || containsSub t pat

/-- matchesFileMask of part_002 lines 50-68: `mask == "*"` short-circuits
to true; otherwise the constructed regex is matched anchored and
case-insensitively against the whole filename; if regex construction
fails, fall back to case-sensitive substring containment. -/
def matchesFileMask (filename mask : String) : Bool :=
  if mask = "*" then true
  else
    match maskToRegex mask with
    | some items => rmatch items filename.toList
    | none => containsSub filename.toList mask.toList

/-!
Size formatter.  The repository holds three revisions of
formatFileSize:
- Rev1 (largest.cpp lines 20-40): integer division, 8-entry suffix
  table starting at " KB", loop bound `suffixIndex < 8`;
- Rev2 (largest.cpp lines 182-204, identical to part_003 revision A
  lines 65-80): integer division, 9-entry table starting at " BY",
  loop bound `suffixIndex < 9`;
- Rev3 (part_002 lines 73-89, identical to part_003 revision B lines
  322-338): the size is converted to `double` and repeatedly divided by
  `1000.0`, 9-entry table starting at " BY", loop bound
  `suffixIndex < 9 - 1`.
All render the number with `std::setw(3) << std::right`, so it is
padded with spaces to width 3.
-/

/-- Decimal rendering right-justified to width 3, the effect of
`oss << std::setw(3) << std::right << n`. -/
def pad3 (n : Nat) : String :=
  let s := toString n
  if s.length < 3 then String.mk (List.replicate (3 - s.length) ' ') ++ s else s

/-- Exact value of an IEEE binary64 number (or of an intermediate exact
quotient about to be rounded), kept as an unreduced fraction
`num / den` of naturals with `den > 0` by construction; all doubles
arising in Rev3 are nonnegative. -/
structure Frac where
  num : Nat
  den : Nat
deriving Repr, DecidableEq

/-- Floor of the base-2 logarithm of `num / den`, for values at least 1:
the number of exponents k below 80 with 2 ^ k * den <= num, minus one.
Every value reached in Rev3 lies in [1, 2^64], well below 2^80. -/
def Frac.flog2 (x : Frac) : Nat :=
  ((List.range 80).filter (fun k => 2 ^ k * x.den ≤ x.num)).length - 1

/-- Round a / b to the nearest integer, ties to even (b > 0): the IEEE
round-to-nearest-even rule applied to an exact nonnegative quotient. -/
def rnEven (a b : Nat) : Nat :=
  let q := a / b
  let r := a % b
  if b < 2 * r then q + 1
  else if 2 * r < b then q
  else if q % 2 = 0 then q else q + 1

/-- Round an exact nonnegative rational to the nearest IEEE binary64
value (round to nearest, ties to even): the significand is rounded to
53 bits at the scale given by the floor base-2 logarithm.  The values
reached in Rev3 are normal and far from overflow, so neither
subnormals nor infinities arise. -/
def roundDouble (x : Frac) : Frac :=
  if x.num = 0 then ⟨0, 1⟩
  else
    let e := x.flog2
    if e ≤ 52 then
      let s := 52 - e
      ⟨rnEven (x.num * 2 ^ s) x.den, 2 ^ s⟩
    else
      let s := e - 52
      ⟨rnEven x.num (x.den * 2 ^ s) * 2 ^ s, 1⟩

/-- Conversion `static_cast<double>(size)` of a uintmax_t: round to the
nearest binary64 value. -/
def doubleOfNat (n : Nat) : Frac :=
  roundDouble ⟨n, 1⟩

/-- IEEE division `scaledSize /= 1000.0`: the exact quotient, rounded to
the nearest binary64 value. -/
def div1000 (x : Frac) : Frac :=
  roundDouble ⟨x.num, x.den * 1000⟩

/-- Truncation `static_cast<uintmax_t>(scaledSize)` of a nonnegative
double: round toward zero. -/
def Frac.trunc (x : Frac) : Nat :=
  x.num / x.den

namespace Rev1

/-- Suffix table of the first revision, which starts at " KB". -/
def suffixes : List String :=
  [" KB", " MB", " GB", " TB", " PB", " EB", " ZB", " YB"]

/-- The loop `while (size >= 1000 && suffixIndex < 8) \x7b size /= 1000;
suffixIndex++; \x7d` of largest.cpp lines 31-34, by structural recursion
on the number of iterations still permitted by the index bound
(8 minus the current suffixIndex). -/
def scaleGo (size idx : Nat) : Nat → Nat × Nat
  | 0 => (size, idx)
  | fuel + 1 => if 1000 ≤ size then scaleGo (size / 1000) (idx + 1) fuel else (size, idx)

/-- The scaling loop started at suffixIndex 0, where the bound
`suffixIndex < 8` permits 8 iterations. -/
def scaleLoop (size : Nat) : Nat × Nat :=
  scaleGo size 0 8

/-- formatFileSize of largest.cpp lines 20-40 (integer division,
KB-first table).  Reading `suffixes[8]` would be out of bounds in the
source; it is unreachable for 64-bit sizes (the index never exceeds 6)
and modelled by the empty default. -/
def formatFileSize (size : Nat) : String :=
  if size < 1000 then pad3 size ++ " bytes"
  else
    let p := scaleLoop size
    pad3 p.1 ++ suffixes.getD p.2 ""

end Rev1

namespace Rev2

/-- Suffix table of the second revision, which starts at " BY". -/
def suffixes : List String :=
  [" BY", " KB", " MB", " GB", " TB", " PB", " EB", " ZB", " YB"]

/-- The loop `while (size >= 1000 && suffixIndex < 9) \x7b size /= 1000;
suffixIndex++; \x7d` of largest.cpp lines 194-198, by structural
recursion on the number of iterations still permitted by the index
bound (9 minus the current suffixIndex). -/
def scaleGo (size idx : Nat) : Nat → Nat × Nat
  | 0 => (size, idx)
  | fuel + 1 => if 1000 ≤ size then scaleGo (size / 1000) (idx + 1) fuel else (size, idx)

/-- The scaling loop started at suffixIndex 0, where the bound
`suffixIndex < 9` permits 9 iterations. -/
def scaleLoop (size : Nat) : Nat × Nat :=
  scaleGo size 0 9

/-- formatFileSize of largest.cpp lines 182-204 and part_003 revision A
lines 65-80 (integer division, BY-first table).  Reading `suffixes[9]`
would be out of bounds; unreachable for 64-bit sizes. -/
def formatFileSize (size : Nat) : String :=
  if size < 1000 then pad3 size ++ " bytes"
  else
    let p := scaleLoop size
    pad3 p.1 ++ suffixes.getD p.2 ""

end Rev2

namespace Rev3

/-- Suffix table of part_002 line 79 (BY-first). -/
def suffixes : List String :=
  [" BY", " KB", " MB", " GB", " TB", " PB", " EB", " ZB", " YB"]

/-- The loop `while (scaledSize >= 1000.0 && suffixIndex < 9 - 1) \x7b
scaledSize /= 1000.0; suffixIndex++; \x7d` of part_002 lines 82-85, over
exact binary64 values, by structural recursion on the number of
iterations still permitted by the index bound (8 minus the current
suffixIndex). -/
def scaleGo (scaled : Frac) (idx : Nat) : Nat → Frac × Nat
  | 0 => (scaled, idx)
  | fuel + 1 =>
    if 1000 * scaled.den ≤ scaled.num then scaleGo (div1000 scaled) (idx + 1) fuel
    else (scaled, idx)

/-- The scaling loop started at suffixIndex 0, where the bound
`suffixIndex < 8` permits 8 iterations. -/
def scaleLoop (scaled : Frac) : Frac × Nat :=
  scaleGo scaled 0 8

/-- formatFileSize of part_002 lines 73-89 (double scaling, BY-first
table): the size is converted to double, scaled down by 1000.0 while at
least 1000.0, truncated to an integer and rendered with the selected
suffix. -/
def formatFileSize (size : Nat) : String :=
  if size < 1000 then pad3 size ++ " bytes"
  else
    let p := scaleLoop (doubleOfNat size)
    pad3 p.1.trunc ++ suffixes.getD p.2 ""

end Rev3

/-!
Directory walker.  The repository walks the tree in two ways:
part_002 (lines 106-174) drives a `fs::recursive_directory_iterator`
with `skip_permission_denied`, pruning with
`it.disable_recursion_pending()` when `it.depth()` exceeds the limit;
part_003 revision B (lines 362-455) keeps an explicit
`std::vector<fs::path>` of directories, popped from the back, and
lists each with a plain `fs::directory_iterator`.  The filesystem is
modelled as a tree; a file carries a `readable` flag (false when
`fs::file_size` would throw) and a directory a `listable` flag (false
when opening or listing it fails).
-/

/-- A filesystem subtree: regular files with their size, and
directories with their children. -/
inductive FSNode where
  | file (name : String) (size : Nat) (readable : Bool)
  | dir (name : String) (listable : Bool) (children : List FSNode)
deriving Repr

/-- Observable state of a walk: the candidate stream in discovery order
(each candidate is offered to the selector the moment it is appended),
the counters fileCount / inaccessibleCount / maxDepth of
listLargestFiles, and the list of directories whose contents were
enumerated (opened), in order. -/
structure WalkAcc where
  cands : List FileEntry
  fileCount : Nat
  inaccessibleCount : Nat
  maxDepth : Nat
  opened : List String
deriving Repr, DecidableEq

mutual

/-- Effect of one entry yielded by the recursive iterator of part_002 at
recursion depth `d` (entries directly in the root have depth 0).  Lines
110-113: when the limit is set and exceeded, recursion is disabled and
the entry skipped.  Lines 116-128: a regular file matching the mask is
counted, the maxDepth statistic updated, and its size read — a failing
size read lands in the per-entry catch (lines 150-168) and increments
inaccessibleCount.  A directory within the limit is descended into;
one that cannot be opened is skipped silently by
`skip_permission_denied`. -/
def walkEntry (mask : String) (depth : Int) (d : Nat) (dirPath : String)
    (acc : WalkAcc) : FSNode → WalkAcc
  | .file name size readable =>
    if depth ≠ -1 ∧ depth < (d : Int) then acc
    else if matchesFileMask name mask then
      let acc1 : WalkAcc :=
        { acc with fileCount := acc.fileCount + 1, maxDepth := max acc.maxDepth d }
      if readable then
        { acc1 with cands := acc1.cands ++ [⟨dirPath ++ "/" ++ name, size⟩] }
      else
        { acc1 with inaccessibleCount := acc1.inaccessibleCount + 1 }
    else acc
  | .dir name listable children =>
    if depth ≠ -1 ∧ depth < (d : Int) then acc
    else if listable then
      walkEntries mask depth (d + 1) (dirPath ++ "/" ++ name)
        { acc with opened := acc.opened ++ [dirPath ++ "/" ++ name] } children
    else acc

/-- The recursive iterator yields a directory entry and then, before
the following siblings, the contents of that directory (depth-first
preorder). -/
def walkEntries (mask : String) (depth : Int) (d : Nat) (dirPath : String)
    (acc : WalkAcc) : List FSNode → WalkAcc
  | [] => acc
  | n :: ns =>
    walkEntries mask depth d dirPath (walkEntry mask depth d dirPath acc n) ns

end

/-- Whole walk of part_002: the iterator is constructed on the root
(opening it) and the loop runs over its yield; if the root itself
cannot be listed the constructor throws into the outer catch of lines
170-174, which logs only, so every counter stays 0.  The root is never
a plain file here because main rejects non-directories first. -/
def runWalkIter (root : FSNode) (mask : String) (depth : Int) (rootPath : String) : WalkAcc :=
  match root with
  | .dir _ true children =>
    walkEntries mask depth 0 rootPath ⟨[], 0, 0, 0, [rootPath]⟩ children
  | _ => ⟨[], 0, 0, 0, []⟩

/-- Effect of one `fs::directory_iterator` entry in the listing loop of
part_003 revision B (lines 392-435): a subdirectory is only pushed onto
the vector (no immediate counter effect, handled by the caller), and a
regular file matching the mask is counted and offered; when its size
read throws, the per-entry catch of lines 428-434 counts it
inaccessible instead. -/
def listFileB (mask : String) (dirPath : String) (acc : WalkAcc) : FSNode → WalkAcc
  | .dir _ _ _ => acc
  | .file name size readable =>
    if matchesFileMask name mask then
      let acc1 : WalkAcc := { acc with fileCount := acc.fileCount + 1 }
      if readable then
        { acc1 with cands := acc1.cands ++ [⟨dirPath ++ "/" ++ name, size⟩] }
      else
        { acc1 with inaccessibleCount := acc1.inaccessibleCount + 1 }
    else acc

mutual

/-- Processing of one directory popped from the back of
`directoriesToProcess` (part_003 revision B lines 369-455): compute its
depth below the root (the root is depth 0, lines 373-382); skip it
entirely when the limit is exceeded (lines 384-386); update maxDepth
(line 388); then list it — files are handled by `listFileB` and
subdirectories pushed — or, when the listing throws, count the
directory inaccessible (lines 436-441) and go on with the rest of the
vector.  Subdirectories are pushed left to right and popped from the
back, so they are descended in reverse order after the listing
completes; `walkDirsB` realizes exactly that order. -/
def walkDirB (mask : String) (depth : Int) (d : Nat) (path : String)
    (acc : WalkAcc) : FSNode → WalkAcc
  | .file _ _ _ => acc
  | .dir _ listable children =>
    if depth ≠ -1 ∧ depth < (d : Int) then acc
    else
      let acc0 : WalkAcc := { acc with maxDepth := max acc.maxDepth d }
      if listable then
        let acc1 : WalkAcc := { acc0 with opened := acc0.opened ++ [path] }
        let acc2 := children.foldl (listFileB mask path) acc1
        walkDirsB mask depth (d + 1) path acc2 children
      else
        { acc0 with inaccessibleCount := acc0.inaccessibleCount + 1 }

/-- Descend into the subdirectories of a listed directory in
last-pushed-first order: the tail of the children list is fully
processed before its head. -/
def walkDirsB (mask : String) (depth : Int) (d : Nat) (parentPath : String)
    (acc : WalkAcc) : List FSNode → WalkAcc
  | [] => acc
  | n :: ns =>
    let accRest := walkDirsB mask depth d parentPath acc ns
    match n with
    | .file _ _ _ => accRest
    | .dir name l c =>
      walkDirB mask depth d (parentPath ++ "/" ++ name) accRest (.dir name l c)

end

/-- Whole walk of part_003 revision B: the vector starts holding the
root path alone and the loop runs until it is empty.  An unlistable
root is counted inaccessible like any other directory (lines 436-441). -/
def runWalkB (root : FSNode) (mask : String) (depth : Int) (rootPath : String) : WalkAcc :=
  walkDirB mask depth 0 rootPath ⟨[], 0, 0, 0, []⟩ root

/-- Whole run of part_002 listLargestFiles: walk the tree offering
every discovered candidate to the heap in order, then pop the heap into
the output vector and keep at most numFiles lines.  Returns the
retained entries in output order together with the final counters. -/
def listLargestFiles (root : FSNode) (mask : String) (depth numFiles : Int)
    (rootPath : String) : List FileEntry × WalkAcc :=
  let acc := runWalkIter root mask depth rootPath
  (resultsOf numFiles (selectTopN numFiles acc.cands), acc)

/-- Whole run of part_003 revision B listLargestFiles: same selector
(lines 401-408 repeat part_002 lines 121-128, with the same max-heap
comparator), fed by the stack-driven walk. -/
def listLargestFilesB (root : FSNode) (mask : String) (depth numFiles : Int)
    (rootPath : String) : List FileEntry × WalkAcc :=
  let acc := runWalkB root mask depth rootPath
  (resultsOf numFiles (selectTopN numFiles acc.cands), acc)

/-- Stdout result lines of part_002 (lines 190-201): one line per
retained entry, the formatted size and the path, or the path alone in
bare mode (relative-path rendering is left to the path strings
themselves). -/
def outputLines (bare : Bool) (rs : List FileEntry) : List String :=
  rs.map (fun e => if bare then e.path else Rev3.formatFileSize e.size ++ " " ++ e.path)

/-- Status of the target path when main validates it (part_002 lines
271-279): missing, existing but not a directory, or a directory with
the given contents. -/
inductive RootStatus where
  | missing
  | notDir
  | isDir (root : FSNode)

/-- Validation and dispatch of main (part_002 lines 270-284): a missing
target prints an error and returns 1, a non-directory target prints an
error and returns 1, both before any traversal; otherwise
listLargestFiles runs and main returns 0.  The result is the exit code
together with the stdout result lines. -/
def mainRun (target : RootStatus) (mask : String) (depth numFiles : Int)
    (bare : Bool) (rootPath : String) : Nat × List String :=
  match target with
  | .missing => (1, [])
  | .notDir => (1, [])
  | .isDir root =>
    (0, outputLines bare (listLargestFiles root mask depth numFiles rootPath).1)

/-!
Argument parsing of main (part_002 lines 208-268).
-/

/-- Meaning of `std::stoi`: skip leading whitespace, take an optional
sign and then at least one decimal digit (parsing stops at the first
non-digit); `none` models the exceptions — invalid_argument when no
digit is found, out_of_range when the value does not fit in a 32-bit
int. -/
def stoi (s : String) : Option Int :=
  let cs := s.toList.dropWhile (fun c => c = ' ' ∨ c = '\t' ∨ c = '\n' ∨ c = '\r')
  let signed : Int × List Char :=
    match cs with
    | '-' :: t => (-1, t)
    | '+' :: t => (1, t)
    | t => (1, t)
  let digits := signed.2.takeWhile Char.isDigit
  if digits.isEmpty then none
  else
    let v : Int := signed.1 * (digits.foldl (fun a c => a * 10 + (c.toNat - 48)) 0 : Nat)
    if v < -(2 ^ 31) ∨ (2 ^ 31 - 1 : Int) < v then none else some v

/-- Options accumulated by the argument loop of part_002 main. -/
structure CliOptions where
  numFiles : Int
  depth : Int
  fileMask : String
  bare : Bool
  relative : Bool
  showProgress : Bool
  verbose : Bool
  target : Option String
deriving Repr, DecidableEq

/-- Initial option values of part_002 main lines 209-216. -/
def defaultOptions : CliOptions :=
  ⟨50, -1, "*", false, false, false, false, none⟩

/-- Outcome of the argument loop: either `-h` printed the help and main
returned 0, or the loop ran to the end with the accumulated options. -/
inductive ParseOutcome where
  | help
  | run (opts : CliOptions)
deriving Repr, DecidableEq

/-- Argument loop of part_002 main (lines 219-268), parameterized by
the ambient filesystem through `isDir` (the check
`fs::exists(p) && fs::is_directory(p)` of line 256).  `-n` consumes the
next argument and parses it with stoi; on success a value below -1 is
reset to 50; a stoi exception is caught by the surrounding catch (lines
262-267), which only logs and continues, so the option keeps its
previous value.  `-d` is analogous with values below -1 reset to -1.
When `-n` or `-d` is the last argument, stoi is not called but the
below--1 reset is still applied to the current value.  Flags set their
booleans, `-h` returns immediately, and any other argument names the
target directory when it exists and is a directory, the file mask
otherwise. -/
def parseLoop (isDir : String → Bool) : List String → CliOptions → ParseOutcome
  | [], o => .run o
  | a :: rest, o =>
    if a = "-n" then
      match rest with
      | [] =>
        .run { o with numFiles := if o.numFiles < -1 then 50 else o.numFiles }
      | v :: rest' =>
        match stoi v with
        | some k => parseLoop isDir rest' { o with numFiles := if k < -1 then 50 else k }
        | none => parseLoop isDir rest' o
    else if a = "-d" then
      match rest with
      | [] =>
        .run { o with depth := if o.depth < -1 then -1 else o.depth }
      | v :: rest' =>
        match stoi v with
        | some k => parseLoop isDir rest' { o with depth := if k < -1 then -1 else k }
        | none => parseLoop isDir rest' o
    else if a = "-b" then parseLoop isDir rest { o with bare := true }
    else if a = "-r" then parseLoop isDir rest { o with relative := true }
    else if a = "-p" then parseLoop isDir rest { o with showProgress := true }
    else if a = "-v" ∨ a = "--verbose" then parseLoop isDir rest { o with verbose := true }
    else if a = "-h" then .help
    else if isDir a then parseLoop isDir rest { o with target := some a }
    else parseLoop isDir rest { o with fileMask := a }

/-- Argument parsing from the default option values. -/
def parseArgs (isDir : String → Bool) (args : List String) : ParseOutcome :=
  parseLoop isDir args defaultOptions

/-!
Concrete trees and streams used to evaluate the embedding, and derived
notions used to state the walking theorems.
-/

/-- Candidate stream with sizes 5, 3, 10, 1, 7 in discovery order. -/
def streamFive : List FileEntry :=
  [⟨"f5", 5⟩, ⟨"f3", 3⟩, ⟨"f10", 10⟩, ⟨"f1", 1⟩, ⟨"f7", 7⟩]

/-- Tree exercising partial failure: five readable files of sizes 5,
3, 10, 1, 7 in the root, next to a subdirectory D that cannot be
listed and whose lone file is therefore unreachable. -/
def failTree : FSNode :=
  .dir "root" true
    [.file "f5" 5 true, .file "f3" 3 true, .file "f10" 10 true,
     .file "f1" 1 true, .file "f7" 7 true,
     .dir "D" false [.file "big" 100 true]]

/-- Regular-file nodes from name-size pairs, all readable. -/
def fileNodes (fs : List (String × Nat)) : List FSNode :=
  fs.map (fun p => .file p.1 p.2 true)

/-- The tree root/A/B/C of the depth-pruning property: arbitrary
regular files directly in the root, in A, in B and in C, each directory
listed after the files beside it. -/
def depthTree (fr fa fb fc : List (String × Nat)) : FSNode :=
  .dir "root" true
    (fileNodes fr ++ [.dir "A" true
      (fileNodes fa ++ [.dir "B" true
        (fileNodes fb ++ [.dir "C" true (fileNodes fc)])])])

/-- Number of files of a directory whose names match the mask. -/
def matchCount (mask : String) (fs : List (String × Nat)) : Nat :=
  (fs.filter (fun q => matchesFileMask q.1 mask)).length

/-- Candidates produced from the matching files of one directory, in
order. -/
def candsOf (mask dirPath : String) (fs : List (String × Nat)) : List FileEntry :=
  (fs.filter (fun q => matchesFileMask q.1 mask)).map
    (fun q => ⟨dirPath ++ "/" ++ q.1, q.2⟩)

/-- All numeric options ever stored by the argument loop lie at or
above -1: the below--1 resets of lines 224 and 227 are the only guards. -/
def OptsClamped : ParseOutcome → Prop
  | .help => True
  | .run o => -1 ≤ o.numFiles ∧ -1 ≤ o.depth


end CppCliToolbox

namespace CppCliToolbox

/-- C1.  Evaluation of the part_002 selector at a failing input: with
capacity 2 and candidate sizes 5, 3, 10, 1, 7 offered in this order,
the final retained sizes are 10 and 3, even though the discarded
candidate of size 7 exceeds the smallest retained size 3.  The eviction
test of lines 125-127 compares the candidate against `heap.top()`,
which under the comparator of line 44 is the LARGEST retained entry,
and evicts that largest entry, so the claimed top-K exactness fails;
the true top-2 here is sizes 10 and 7. -/
theorem c1_topk_eviction_bug_eval :
    (selectTopN 2 streamFive).map (fun e => e.size) = [10, 3] ∧ (3 : Nat) < 7 := by
  decide

/-- C3.  Evaluation of the part_003 revision B walk at a failing input:
in `failTree` the subdirectory D cannot be listed, and indeed the walk
completes without aborting, counts the directory inaccessible
(inaccessibleCount = 1), and still processes all five reachable files
(fileCount = 5).  But the final results with capacity 2 are sizes 10
and 3, not the correct top-2 of the reachable files (10 and 7): the
selector shared with part_002 evicts the largest retained entry.  The
failure-tolerance clauses of the claim hold; the correct-top-K clause
does not. -/
theorem c3_partial_failure_eval :
    (listLargestFilesB failTree "*" (-1) 2 "root").2.inaccessibleCount = 1 ∧
    (listLargestFilesB failTree "*" (-1) 2 "root").2.fileCount = 5 ∧
    (listLargestFilesB failTree "*" (-1) 2 "root").1.map (fun e => e.size) = [10, 3] ∧
    (3 : Nat) < 7 := by
  refine ⟨?_, ?_, ?_, by decide⟩ <;>
    simp [listLargestFilesB, runWalkB, walkDirB, walkDirsB, listFileB, matchesFileMask,
      selectTopN, offer, heapPush, resultsOf, failTree]

/-- C4.  Evaluation of matchesFileMask (part_002 lines 50-68) at a
failing input: the escape pass covers `. ^ $ | ( ) [ ] \x7b \x7d \` but
not `+`, so in the mask "a+b" the `+` acts as a one-or-more quantifier
on 'a' and the filename "a+b" does NOT match its own literal mask —
while "aab" does.  The three examples of the claim do hold: "*.txt"
matches "report.TXT" case-insensitively, "?.txt" matches "a.txt" and
not "ab.txt". -/
theorem c4_matcher_unescaped_plus_eval :
    matchesFileMask "a+b" "a+b" = false ∧
    matchesFileMask "aab" "a+b" = true ∧
    matchesFileMask "report.TXT" "*.txt" = true ∧
    matchesFileMask "a.txt" "?.txt" = true ∧
    matchesFileMask "ab.txt" "?.txt" = false := by
  refine ⟨?_, ?_, ?_, ?_, ?_⟩ <;>
    simp [matchesFileMask, maskToRegex, maskStep, rmatch, atomMatch, RItem.isQuant]

/-- C8.  Exit status of part_002 main (lines 270-284): a missing target
path and a target that is not a directory both return exit code 1 with
no result output, before any traversal; an existing directory target
always returns exit code 0 — for every tree, hence also when no file
matches the mask — and on an empty directory the run succeeds with
exit code 0 and zero result lines. -/
theorem c8_exit_codes (mask : String) (depth numFiles : Int) (bare : Bool)
    (rootPath : String) (root : FSNode) :
    mainRun .missing mask depth numFiles bare rootPath = (1, []) ∧
    mainRun .notDir mask depth numFiles bare rootPath = (1, []) ∧
    (mainRun (.isDir root) mask depth numFiles bare rootPath).1 = 0 ∧
    mainRun (.isDir (.dir "root" true [])) mask depth numFiles bare "root" = (0, []) := by
  refine ⟨rfl, rfl, rfl, ?_⟩
  simp [mainRun, listLargestFiles, runWalkIter, walkEntries, outputLines,
    selectTopN, resultsOf]

/-- C5.  Counterexample to the truncation clause: at the byte count
999999999999999999 (which is 10^18 - 1), the part_002 formatter
renders "  1 EB", not the "999 PB" that repeated division by 1000 with
truncation would give — the conversion to double rounds the count up
to exactly 10^18 before any division happens. -/
theorem c5_double_rounding_counterexample :
    Rev3.formatFileSize 999999999999999999 = "  1 EB" ∧
    Rev3.formatFileSize 999999999999999999 ≠ "999 PB" := by
  decide

/-- C5 amended.  For every byte count below 1000 the part_002 formatter
renders the count right-justified to width 3 followed by " bytes", so
formatSize 999 = "999 bytes"; at or above 1000 it scales a double by
repeated division by 1000.0 with a BY-first suffix table, giving
"  1 KB" at 1000 and "  1 MB" at one million; the scaled value is
truncated only after the double arithmetic, which itself rounds, so
the result can differ from exact truncated division (the integer
revision Rev2 renders "999 PB" where Rev3 renders "  1 EB"). -/
theorem c5_formatSize_amended (n : Nat) (h : n < 1000) :
    Rev3.formatFileSize n = pad3 n ++ " bytes" ∧
    Rev3.formatFileSize 999 = "999 bytes" ∧
    Rev3.formatFileSize 1000 = "  1 KB" ∧
    Rev3.formatFileSize 1000000 = "  1 MB" ∧
    Rev2.formatFileSize 999999999999999999 = "999 PB" := by
  refine ⟨?_, by decide, by decide, by decide, by decide⟩
  simp [Rev3.formatFileSize, h]

/-- C5 witness: the amended statement instantiated at 999. -/
theorem c5_formatSize_amended_witness :
    (999 : Nat) < 1000 ∧
    (Rev3.formatFileSize 999 = pad3 999 ++ " bytes" ∧
     Rev3.formatFileSize 999 = "999 bytes" ∧
     Rev3.formatFileSize 1000 = "  1 KB" ∧
     Rev3.formatFileSize 1000000 = "  1 MB" ∧
     Rev2.formatFileSize 999999999999999999 = "999 PB") :=
  ⟨by decide, c5_formatSize_amended 999 (by decide)⟩

/-- C10.  Counterexample: the three formatFileSize revisions do not
return the same string on every input.  At 1000 the early KB-first
revision renders "  1 MB" while both BY-first revisions render
"  1 KB"; and at 999999999999999999 the integer BY-first revision and
the double BY-first revision disagree as well. -/
theorem c10_formatters_disagree :
    Rev1.formatFileSize 1000 = "  1 MB" ∧
    Rev2.formatFileSize 1000 = "  1 KB" ∧
    Rev3.formatFileSize 1000 = "  1 KB" ∧
    Rev1.formatFileSize 1000 ≠ Rev2.formatFileSize 1000 ∧
    Rev2.formatFileSize 999999999999999999 ≠ Rev3.formatFileSize 999999999999999999 := by
  decide

/-- C9.  Counterexample: a value of -n that stoi cannot parse does not
reset the option to the default 50; the surrounding catch of part_002
lines 262-267 just continues, so the option keeps its previously
parsed value — here "-n 7 -n x" ends with numFiles = 7, not 50. -/
theorem c9_invalid_value_keeps_previous :
    parseArgs (fun _ => false) ["-n", "7", "-n", "x"] =
      .run { defaultOptions with numFiles := 7 } ∧
    ({ defaultOptions with numFiles := 7 } : CliOptions).numFiles ≠ 50 := by
  decide

/-- Membership in the queue after a push: exactly the pushed entry and
the previous contents. -/
theorem heapPush_mem {x e : FileEntry} {q : List FileEntry} :
    x ∈ heapPush e q ↔ x = e ∨ x ∈ q := by
  induction q with
  | nil => simp [heapPush]
  | cons a t ih =>
    by_cases hc : a.size < e.size
    · simp [heapPush, hc]
    · simp only [heapPush, if_neg hc, List.mem_cons, ih]
      tauto

/-- A push preserves the descending pop order of the queue. -/
theorem heapPush_pairwise {e : FileEntry} {q : List FileEntry}
    (hs : q.Pairwise (fun a b => b.size ≤ a.size)) :
    (heapPush e q).Pairwise (fun a b => b.size ≤ a.size) := by
  induction q with
  | nil => simp [heapPush]
  | cons a t ih =>
    rcases List.pairwise_cons.mp hs with ⟨ha, ht⟩
    by_cases hc : a.size < e.size
    · rw [heapPush, if_pos hc]
      refine List.pairwise_cons.mpr ⟨?_, hs⟩
      intro x hx
      rcases List.mem_cons.mp hx with rfl | hx'
      · exact Nat.le_of_lt hc
      · exact Nat.le_trans (ha x hx') (Nat.le_of_lt hc)
    · rw [heapPush, if_neg hc]
      refine List.pairwise_cons.mpr ⟨?_, ih ht⟩
      intro x hx
      rcases heapPush_mem.mp hx with rfl | hx'
      · exact Nat.le_of_not_lt hc
      · exact ha x hx'

/-- An offer preserves the descending pop order of the queue. -/
theorem offer_pairwise {numFiles : Int} {q : List FileEntry} {e : FileEntry}
    (hs : q.Pairwise (fun a b => b.size ≤ a.size)) :
    (offer numFiles q e).Pairwise (fun a b => b.size ≤ a.size) := by
  unfold offer
  split
  · exact heapPush_pairwise hs
  split
  · exact heapPush_pairwise hs
  split
  · exact hs
  split
  · exact heapPush_pairwise (List.pairwise_cons.mp hs).2
  · exact hs

/-- The whole selector run keeps the queue in descending pop order. -/
theorem foldl_offer_pairwise (numFiles : Int) (es : List FileEntry) :
    ∀ q, q.Pairwise (fun a b => b.size ≤ a.size) →
      (es.foldl (offer numFiles) q).Pairwise (fun a b => b.size ≤ a.size) := by
  induction es with
  | nil => exact fun q hq => hq
  | cons e t ih => exact fun q hq => ih _ (offer_pairwise hq)

/-- C6.  Output order: for every capacity and every candidate stream,
the result list of the part_002 run (pop the max-heap into the output
vector, print at most numFiles entries) is sorted descending by size —
every entry is at least as large as each entry after it, so in
particular all adjacent pairs satisfy entries[i].size >=
entries[i+1].size.  The model is a function of the candidate stream
alone, with ties fixed in insertion order, so one walk order always
reproduces one output sequence. -/
theorem c6_results_sorted_desc (numFiles : Int) (es : List FileEntry) :
    (runResults numFiles es).Pairwise (fun a b => b.size ≤ a.size) := by
  have hsel : (selectTopN numFiles es).Pairwise (fun a b => b.size ≤ a.size) :=
    foldl_offer_pairwise numFiles es [] List.Pairwise.nil
  unfold runResults resultsOf
  split
  · exact hsel
  · exact hsel.sublist (List.take_sublist _ _)

/-- A push grows the queue by exactly one entry. -/
theorem heapPush_length (e : FileEntry) (q : List FileEntry) :
    (heapPush e q).length = q.length + 1 := by
  induction q with
  | nil => rfl
  | cons a t ih =>
    rw [heapPush]
    split
    · rfl
    · simp [ih]

/-- An offer grows the queue by one entry or leaves its size unchanged
(an eviction pops one entry and pushes one). -/
theorem offer_length_cases (numFiles : Int) (q : List FileEntry) (e : FileEntry) :
    (offer numFiles q e).length = q.length + 1 ∨
    (offer numFiles q e).length = q.length := by
  unfold offer
  split
  · exact Or.inl (heapPush_length e q)
  split
  · exact Or.inl (heapPush_length e q)
  split
  · exact Or.inr rfl
  split
  · exact Or.inr (by simp [heapPush_length])
  · exact Or.inr rfl

/-- Below capacity, an offer inserts unconditionally. -/
theorem offer_length_lt {K : Int} {q : List FileEntry} (e : FileEntry)
    (hlt : q.length < K.toNat) :
    (offer K q e).length = q.length + 1 := by
  by_cases hK1 : K = -1
  · unfold offer
    rw [if_pos hK1]
    exact heapPush_length e q
  · unfold offer
    rw [if_neg hK1, if_pos hlt]
    exact heapPush_length e q

/-- At capacity (at least 1), an offer never changes the queue size. -/
theorem offer_length_full {K : Int} (hK : 1 ≤ K) {q : List FileEntry} (e : FileEntry)
    (hfull : q.length = K.toNat) :
    (offer K q e).length = q.length := by
  have hne : ¬K = -1 := by omega
  have hnlt : ¬q.length < K.toNat := by omega
  unfold offer
  rw [if_neg hne, if_neg hnlt]
  split
  · rfl
  split
  · simp [heapPush_length]
  · rfl

/-- Selector-state invariant over a whole stream: starting below or at
capacity, the queue size ends at the minimum of the capacity and the
starting size plus the stream length. -/
theorem foldl_offer_length {K : Int} (hK : 1 ≤ K) (es : List FileEntry) :
    ∀ q : List FileEntry, q.length ≤ K.toNat →
      (es.foldl (offer K) q).length = min K.toNat (q.length + es.length) := by
  induction es with
  | nil =>
    intro q hq
    simp [Nat.min_eq_right hq]
  | cons e t ih =>
    intro q hq
    rcases Nat.lt_or_ge q.length K.toNat with hlt | hge
    · have h1 := offer_length_lt (K := K) e hlt
      rw [List.foldl_cons, ih _ (by omega), h1]
      simp only [List.length_cons]
      omega
    · have hfull : q.length = K.toNat := by omega
      have h1 := offer_length_full hK e hfull
      rw [List.foldl_cons, ih _ (by omega), h1]
      simp only [List.length_cons]
      omega

/-- C7.  Selection-state invariant: for every bounded capacity K at
least 1 and every candidate stream (hence after every single offer,
since every prefix is itself a stream), the retained count equals
min(K, number of matching files seen) and never exceeds K; and a
single offer on any queue either adds exactly one entry or leaves the
count unchanged (evicting one and inserting one), never more. -/
theorem c7_selection_cardinality (K : Int) (hK : 1 ≤ K) (es q : List FileEntry)
    (e : FileEntry) :
    (selectTopN K es).length = min K.toNat es.length ∧
    (selectTopN K es).length ≤ K.toNat ∧
    ((offer K q e).length = q.length + 1 ∨ (offer K q e).length = q.length) := by
  have hmain := foldl_offer_length hK es ([] : List FileEntry) (by simp)
  refine ⟨?_, ?_, offer_length_cases K q e⟩
  · simpa [selectTopN] using hmain
  · have : (selectTopN K es).length = min K.toNat es.length := by
      simpa [selectTopN] using hmain
    omega

/-- C7 witness: the invariant instantiated at capacity 2 and the
five-candidate stream. -/
theorem c7_selection_cardinality_witness :
    (1 : Int) ≤ 2 ∧
    ((selectTopN 2 streamFive).length = min (2 : Int).toNat streamFive.length ∧
     (selectTopN 2 streamFive).length ≤ (2 : Int).toNat ∧
     ((offer 2 ([] : List FileEntry) ⟨"x", 4⟩).length = ([] : List FileEntry).length + 1 ∨
      (offer 2 ([] : List FileEntry) ⟨"x", 4⟩).length = ([] : List FileEntry).length)) :=
  ⟨by decide, c7_selection_cardinality 2 (by decide) streamFive [] ⟨"x", 4⟩⟩

/-- The numeric options stay at or above -1 through the whole argument
loop: every stored -n value passes the below--1 reset to 50 and every
stored -d value the below--1 reset to -1. -/
theorem parseLoop_clamped (isD : String → Bool) :
    ∀ (args : List String) (o : CliOptions),
      -1 ≤ o.numFiles → -1 ≤ o.depth → OptsClamped (parseLoop isD args o) := by
  intro args o
  induction args, o using parseLoop.induct isD <;> intro h1 h2 <;>
    rw [parseLoop.eq_def] <;> simp_all [OptsClamped] <;>
    try (split_ifs <;> omega)
  all_goals (rename_i ih; exact ih (by split_ifs <;> omega))

/-- C9 amended.  For -n, -1 means unbounded (the selector then pushes
unconditionally and the output is uncapped), a parsed value below -1
is reset to the default 50, and a value stoi cannot parse leaves the
option at its previous value (the default 50 when it was never set)
instead of resetting it; for -d a parsed value below -1 is reset to -1
and an unparsable value likewise leaves the option unchanged; the loop
never aborts and both options end at or above -1 on every argument
list. -/
theorem c9_numeric_options_amended (isD : String → Bool) (v w : String)
    (rest : List String) (o : CliOptions) (k : Int)
    (hv : stoi v = some k) (hw : stoi w = none) :
    parseLoop isD ("-n" :: v :: rest) o =
      parseLoop isD rest { o with numFiles := if k < -1 then 50 else k } ∧
    parseLoop isD ("-d" :: v :: rest) o =
      parseLoop isD rest { o with depth := if k < -1 then -1 else k } ∧
    parseLoop isD ("-n" :: w :: rest) o = parseLoop isD rest o ∧
    parseLoop isD ("-d" :: w :: rest) o = parseLoop isD rest o ∧
    (∀ q e, offer (-1) q e = heapPush e q) ∧
    (∀ q, resultsOf (-1) q = q) ∧
    (∀ args : List String, OptsClamped (parseLoop isD args defaultOptions)) := by
  refine ⟨?_, ?_, ?_, ?_, fun q e => by simp [offer], fun q => by simp [resultsOf], ?_⟩
  · conv_lhs => rw [parseLoop.eq_def]
    simp [hv]
  · conv_lhs => rw [parseLoop.eq_def]
    simp [hv]
  · conv_lhs => rw [parseLoop.eq_def]
    simp [hw]
  · conv_lhs => rw [parseLoop.eq_def]
    simp [hw]
  · intro args
    exact parseLoop_clamped isD args defaultOptions (by decide) (by decide)

/-- C9 witness: the amended statement instantiated at the parsable
value "-5" and the unparsable value "x". -/
theorem c9_numeric_options_amended_witness :
    stoi "-5" = some (-5) ∧ stoi "x" = none ∧
    (parseLoop (fun _ => false) ["-n", "-5"] defaultOptions =
       parseLoop (fun _ => false) []
         { defaultOptions with numFiles := if (-5 : Int) < -1 then 50 else -5 } ∧
     parseLoop (fun _ => false) ["-d", "-5"] defaultOptions =
       parseLoop (fun _ => false) []
         { defaultOptions with depth := if (-5 : Int) < -1 then -1 else -5 } ∧
     parseLoop (fun _ => false) ["-n", "x"] defaultOptions =
       parseLoop (fun _ => false) [] defaultOptions ∧
     parseLoop (fun _ => false) ["-d", "x"] defaultOptions =
       parseLoop (fun _ => false) [] defaultOptions ∧
     (∀ q e, offer (-1) q e = heapPush e q) ∧
     (∀ q, resultsOf (-1) q = q) ∧
     (∀ args : List String, OptsClamped (parseLoop (fun _ => false) args defaultOptions))) :=
  ⟨by decide, by decide,
   c9_numeric_options_amended (fun _ => false) "-5" "x" [] defaultOptions (-5)
     (by decide) (by decide)⟩

/-- The scaling loops of Rev1 and Rev2 perform the same divisions for
the same fuel; only their suffix tables and fuel bounds differ. -/
theorem scaleGo_agree (fuel : Nat) :
    ∀ size idx, Rev1.scaleGo size idx fuel = Rev2.scaleGo size idx fuel := by
  induction fuel with
  | zero => intro size idx; rfl
  | succ f ih =>
    intro size idx
    by_cases h : 1000 ≤ size <;> simp [Rev1.scaleGo, Rev2.scaleGo, h, ih]

/-- With a size below 1000^(f+1) the integer scaling loop stops within
f iterations, so any fuel bound of at least f yields the same result. -/
theorem scaleGo_fuel (f : Nat) :
    ∀ size idx g, size < 1000 ^ (f + 1) → f ≤ g →
      Rev1.scaleGo size idx f = Rev1.scaleGo size idx g := by
  induction f with
  | zero =>
    intro size idx g hs hg
    have hlt : ¬1000 ≤ size := by
      norm_num at hs
      omega
    cases g with
    | zero => rfl
    | succ h => simp [Rev1.scaleGo, hlt]
  | succ f ih =>
    intro size idx g hs hg
    cases g with
    | zero => omega
    | succ h =>
      by_cases h1000 : 1000 ≤ size
      · simp only [Rev1.scaleGo, if_pos h1000]
        refine ih _ _ _ ?_ (by omega)
        refine (Nat.div_lt_iff_lt_mul (by norm_num)).mpr ?_
        calc size < 1000 ^ (f + 1 + 1) := hs
        _ = 1000 ^ (f + 1) * 1000 := pow_succ 1000 (f + 1)
      · simp [Rev1.scaleGo, h1000]

/-- The index returned by the scaling loop grows by at most the fuel. -/
theorem scaleGo_idx_le (fuel : Nat) :
    ∀ size idx, (Rev1.scaleGo size idx fuel).2 ≤ idx + fuel := by
  induction fuel with
  | zero => intro size idx; simp [Rev1.scaleGo]
  | succ f ih =>
    intro size idx
    rw [Rev1.scaleGo]
    split
    · exact le_trans (ih _ _) (by omega)
    · exact Nat.le_add_right _ _

/-- At every index the loop can reach, the KB-first table of Rev1 names
a different suffix than the BY-first table of Rev2. -/
theorem rev_suffixes_ne :
    ∀ k, k ≤ 8 → Rev1.suffixes.getD k "" ≠ Rev2.suffixes.getD k "" := by
  decide

/-- The BY-first table of Rev2 is the KB-first table of Rev1 shifted by
one position. -/
theorem rev_suffixes_shift :
    ∀ k, k ≤ 8 → Rev2.suffixes.getD (k + 1) "" = Rev1.suffixes.getD k "" := by
  decide

/-- Appending different strings to a common front yields different
strings. -/
theorem string_append_ne {a s t : String} (h : s ≠ t) : a ++ s ≠ a ++ t := by
  intro he
  apply h
  have hd : a.data ++ s.data = a.data ++ t.data := by
    have hc := congrArg String.data he
    simpa using hc
  have hst : s.data = t.data := List.append_cancel_left hd
  cases s
  cases t
  exact congrArg String.mk hst

/-- C10 amended.  The three formatFileSize revisions agree on every
byte count below 1000 (all render the padded count and " bytes"); for
every count at or above 1000 in the uintmax_t range the early KB-first
revision disagrees with the integer BY-first revision on the rendered
string: both compute the same scaled value, but the KB-first table
names the next-larger unit at every reachable index; and the double
BY-first revision does not agree with the integer BY-first revision
everywhere either (they differ at 999999999999999999). -/
theorem c10_formatters_amended (n : Nat) (h64 : n < 2 ^ 64) :
    (n < 1000 →
       Rev1.formatFileSize n = Rev2.formatFileSize n ∧
       Rev2.formatFileSize n = Rev3.formatFileSize n) ∧
    (1000 ≤ n →
       (Rev1.scaleLoop n).1 = (Rev2.scaleLoop n).1 ∧
       Rev2.suffixes.getD ((Rev1.scaleLoop n).2 + 1) "" =
         Rev1.suffixes.getD (Rev1.scaleLoop n).2 "" ∧
       Rev1.formatFileSize n ≠ Rev2.formatFileSize n) ∧
    Rev2.formatFileSize 999999999999999999 ≠ Rev3.formatFileSize 999999999999999999 := by
  have hloop : Rev1.scaleLoop n = Rev2.scaleLoop n := by
    have hlt : n < 1000 ^ 8 := lt_trans h64 (by norm_num)
    unfold Rev1.scaleLoop Rev2.scaleLoop
    rw [← scaleGo_agree 9 n 0, ← scaleGo_fuel 7 n 0 8 hlt (by omega),
      ← scaleGo_fuel 7 n 0 9 hlt (by omega)]
  refine ⟨?_, ?_, by decide⟩
  · intro hsmall
    constructor <;>
      simp [Rev1.formatFileSize, Rev2.formatFileSize, Rev3.formatFileSize, hsmall]
  · intro hge
    have hidx : (Rev1.scaleLoop n).2 ≤ 8 := by
      have hb := scaleGo_idx_le 8 n 0
      simpa [Rev1.scaleLoop] using hb
    have hnot : ¬n < 1000 := by omega
    refine ⟨by rw [hloop], rev_suffixes_shift _ hidx, ?_⟩
    simp only [Rev1.formatFileSize, Rev2.formatFileSize, if_neg hnot, ← hloop]
    exact string_append_ne (rev_suffixes_ne _ hidx)

/-- C10 witness: the amended statement instantiated below 1000 at 500
and above at 2000. -/
theorem c10_formatters_amended_witness :
    (500 : Nat) < 2 ^ 64 ∧ (2000 : Nat) < 2 ^ 64 ∧
    (Rev1.formatFileSize 500 = Rev2.formatFileSize 500 ∧
     Rev2.formatFileSize 500 = Rev3.formatFileSize 500) ∧
    ((Rev1.scaleLoop 2000).1 = (Rev2.scaleLoop 2000).1 ∧
     Rev2.suffixes.getD ((Rev1.scaleLoop 2000).2 + 1) "" =
       Rev1.suffixes.getD (Rev1.scaleLoop 2000).2 "" ∧
     Rev1.formatFileSize 2000 ≠ Rev2.formatFileSize 2000) :=
  ⟨by decide, by decide,
   (c10_formatters_amended 500 (by decide)).1 (by decide),
   (c10_formatters_amended 2000 (by decide)).2.1 (by decide)⟩

/-- Entries at a pruned depth are skipped wholesale by the part_002
iterator: files and directories alike fall into the
disable-recursion-and-continue branch, so the accumulator is untouched. -/
theorem walkEntries_pruned (mask : String) (depth : Int) (d : Nat) (p : String)
    (ns : List FSNode) (hp : depth ≠ -1 ∧ depth < (d : Int)) :
    ∀ acc : WalkAcc, walkEntries mask depth d p acc ns = acc := by
  induction ns with
  | nil => intro acc; rw [walkEntries]
  | cons n ns ih =>
    intro acc
    rw [walkEntries]
    have hn : walkEntry mask depth d p acc n = acc := by
      cases n <;> rw [walkEntry] <;> rw [if_pos hp]
    rw [hn]
    exact ih acc

/-- The iterator processes a concatenation of sibling runs in order. -/
theorem walkEntries_append (mask : String) (depth : Int) (d : Nat) (p : String)
    (l1 l2 : List FSNode) :
    ∀ acc : WalkAcc, walkEntries mask depth d p acc (l1 ++ l2) =
      walkEntries mask depth d p (walkEntries mask depth d p acc l1) l2 := by
  induction l1 with
  | nil => intro acc; rw [List.nil_append, walkEntries]
  | cons n l1 ih =>
    intro acc
    rw [List.cons_append, walkEntries, walkEntries]
    exact ih _

/-- Effect of the part_002 iterator on a run of readable regular files
at an unpruned depth: the matching ones are counted and offered in
order; nothing else changes except possibly the maxDepth statistic. -/
theorem walkEntries_fileNodes (mask p : String) (depth : Int) (d : Nat)
    (fs : List (String × Nat)) (hnp : ¬(depth ≠ -1 ∧ depth < (d : Int))) :
    ∀ acc : WalkAcc, ∃ m, walkEntries mask depth d p acc (fileNodes fs) =
      ⟨acc.cands ++ candsOf mask p fs, acc.fileCount + matchCount mask fs,
       acc.inaccessibleCount, m, acc.opened⟩ := by
  induction fs with
  | nil =>
    intro acc
    exact ⟨acc.maxDepth, by simp [fileNodes, candsOf, matchCount, walkEntries]⟩
  | cons f fs ih =>
    intro acc
    simp only [fileNodes, List.map_cons, walkEntries]
    rw [walkEntry, if_neg hnp]
    by_cases hm : matchesFileMask f.1 mask
    · rw [if_pos hm]
      simp only [if_pos rfl]
      obtain ⟨m, hrec⟩ := ih _
      refine ⟨m, ?_⟩
      rw [show (fileNodes fs) = fs.map (fun q => FSNode.file q.1 q.2 true) from rfl] at hrec
      rw [hrec]
      simp [candsOf, matchCount, List.filter_cons, hm]
      omega
    · rw [if_neg hm]
      obtain ⟨m, hrec⟩ := ih acc
      refine ⟨m, ?_⟩
      rw [show (fileNodes fs) = fs.map (fun q => FSNode.file q.1 q.2 true) from rfl] at hrec
      rw [hrec]
      simp [candsOf, matchCount, List.filter_cons, hm]

/-- Effect of one directory listing of the revision B walk on a run of
readable regular files: matching files are counted and offered; the
counters for inaccessible entries, the depth statistic and the opened
list are untouched. -/
theorem foldl_listFileB (mask p : String) (fs : List (String × Nat)) :
    ∀ acc : WalkAcc, (fileNodes fs).foldl (listFileB mask p) acc =
      ⟨acc.cands ++ candsOf mask p fs, acc.fileCount + matchCount mask fs,
       acc.inaccessibleCount, acc.maxDepth, acc.opened⟩ := by
  induction fs with
  | nil => intro acc; simp [fileNodes, candsOf, matchCount]
  | cons f fs ih =>
    intro acc
    simp only [fileNodes, List.map_cons, List.foldl_cons]
    rw [listFileB]
    by_cases hm : matchesFileMask f.1 mask
    · rw [if_pos hm]
      simp only [if_pos rfl]
      rw [show (fs.map (fun q => FSNode.file q.1 q.2 true)) = fileNodes fs from rfl, ih]
      simp [candsOf, matchCount, List.filter_cons, hm]
      omega
    · rw [if_neg hm]
      rw [show (fs.map (fun q => FSNode.file q.1 q.2 true)) = fileNodes fs from rfl, ih]
      simp [candsOf, matchCount, List.filter_cons, hm]

/-- Regular files contribute nothing to the descent pass of the
revision B walk: only directories were pushed onto the vector. -/
theorem walkDirsB_files (mask : String) (depth : Int) (d : Nat) (pp : String)
    (fs : List (String × Nat)) :
    ∀ acc : WalkAcc, walkDirsB mask depth d pp acc (fileNodes fs) = acc := by
  induction fs with
  | nil => intro acc; simp only [walkDirsB]
  | cons f fs ih =>
    intro acc
    simp only [fileNodes, List.map_cons, walkDirsB]
    rw [show (fs.map (fun q => FSNode.file q.1 q.2 true)) = fileNodes fs from rfl, ih]

/-- The descent pass processes a concatenation right to left: the
later-pushed block is descended before the earlier one. -/
theorem walkDirsB_append (mask : String) (depth : Int) (d : Nat) (pp : String)
    (l1 l2 : List FSNode) :
    ∀ acc : WalkAcc, walkDirsB mask depth d pp acc (l1 ++ l2) =
      walkDirsB mask depth d pp (walkDirsB mask depth d pp acc l2) l1 := by
  induction l1 with
  | nil => intro acc; rw [List.nil_append]; simp only [walkDirsB]
  | cons n l1 ih =>
    intro acc
    rw [List.cons_append]
    cases n with
    | file nm sz r =>
      simp only [walkDirsB]
      exact ih acc
    | dir nm l c =>
      simp only [walkDirsB]
      rw [ih]

/-- A singleton entry list processes exactly that entry. -/
theorem walkEntries_singleton (mask : String) (depth : Int) (d : Nat) (p : String)
    (acc : WalkAcc) (n : FSNode) :
    walkEntries mask depth d p acc [n] = walkEntry mask depth d p acc n := by
  rw [walkEntries, walkEntries]

/-- At an unpruned depth the iterator opens a listable directory and
descends into its children one level deeper. -/
theorem walkEntry_dir (mask : String) (depth : Int) (d : Nat) (p nm : String)
    (children : List FSNode) (acc : WalkAcc)
    (hnp : ¬(depth ≠ -1 ∧ depth < (d : Int))) :
    walkEntry mask depth d p acc (.dir nm true children) =
      walkEntries mask depth (d + 1) (p ++ "/" ++ nm)
        { acc with opened := acc.opened ++ [p ++ "/" ++ nm] } children := by
  rw [walkEntry, if_neg hnp]
  simp

/-- At an unpruned depth the revision B walk opens a listable
directory: it updates the depth statistic, records the directory as
opened, handles all its files, and then descends into the
subdirectories one level deeper. -/
theorem walkDirB_dir (mask : String) (depth : Int) (d : Nat) (path nm : String)
    (children : List FSNode) (acc : WalkAcc)
    (hnp : ¬(depth ≠ -1 ∧ depth < (d : Int))) :
    walkDirB mask depth d path acc (.dir nm true children) =
      walkDirsB mask depth (d + 1) path
        (children.foldl (listFileB mask path)
          { acc with maxDepth := max acc.maxDepth d,
                     opened := acc.opened ++ [path] })
        children := by
  rw [walkDirB, if_neg hnp]
  simp

/-- A directory whose depth exceeds the limit is skipped by the
revision B walk before being listed: nothing changes. -/
theorem walkDirB_pruned (mask : String) (depth : Int) (d : Nat) (path : String)
    (acc : WalkAcc) (n : FSNode) (hp : depth ≠ -1 ∧ depth < (d : Int)) :
    walkDirB mask depth d path acc n = acc := by
  cases n with
  | file nm sz r => rw [walkDirB]
  | dir nm l c => rw [walkDirB, if_pos hp]

/-- Descending into a single pushed subdirectory. -/
theorem walkDirsB_singleton_dir (mask : String) (depth : Int) (d : Nat)
    (pp nm : String) (l : Bool) (c : List FSNode) (acc : WalkAcc) :
    walkDirsB mask depth d pp acc [.dir nm l c] =
      walkDirB mask depth d (pp ++ "/" ++ nm) acc (.dir nm l c) := by
  simp only [walkDirsB]

/-- A directory entry has no immediate effect during the listing pass. -/
theorem foldl_listFileB_dir (mask p : String) (acc : WalkAcc)
    (nm : String) (l : Bool) (c : List FSNode) :
    ([FSNode.dir nm l c]).foldl (listFileB mask p) acc = acc := by
  rw [List.foldl_cons, List.foldl_nil, listFileB]

/-- Closed form of the part_002 iterator walk on root/A/B/C with depth
limit 1: the matching files of the root and of A are counted and
offered in order, the walk opens exactly root, A and B, and nothing of
B's contents — in particular neither the files of B nor the directory
C — is counted, offered or opened. -/
theorem runWalkIter_depthTree (mask : String) (fr fa fb fc : List (String × Nat)) :
    ∃ m, runWalkIter (depthTree fr fa fb fc) mask 1 "root" =
      ⟨candsOf mask "root" fr ++ candsOf mask "root/A" fa,
       matchCount mask fr + matchCount mask fa, 0, m,
       ["root", "root/A", "root/A/B"]⟩ := by
  obtain ⟨m1, h1⟩ := walkEntries_fileNodes mask "root" 1 0 fr (by decide)
    ⟨[], 0, 0, 0, ["root"]⟩
  simp only [List.nil_append, Nat.zero_add] at h1
  obtain ⟨m2, h2⟩ := walkEntries_fileNodes mask "root/A" 1 1 fa (by decide)
    ⟨candsOf mask "root" fr, matchCount mask fr, 0, m1, ["root", "root/A"]⟩
  refine ⟨m2, ?_⟩
  show walkEntries mask 1 0 "root" ⟨[], 0, 0, 0, ["root"]⟩
      (fileNodes fr ++ [.dir "A" true (fileNodes fa ++ [.dir "B" true
        (fileNodes fb ++ [.dir "C" true (fileNodes fc)])])]) = _
  rw [walkEntries_append, h1, walkEntries_singleton,
    walkEntry_dir mask 1 0 "root" "A" _ _ (by decide)]
  show walkEntries mask 1 1 "root/A"
      ⟨candsOf mask "root" fr, matchCount mask fr, 0, m1, ["root", "root/A"]⟩
      (fileNodes fa ++ [.dir "B" true
        (fileNodes fb ++ [.dir "C" true (fileNodes fc)])]) = _
  rw [walkEntries_append, h2, walkEntries_singleton]
  show walkEntry mask 1 1 "root/A"
      ⟨candsOf mask "root" fr ++ candsOf mask "root/A" fa,
       matchCount mask fr + matchCount mask fa, 0, m2, ["root", "root/A"]⟩
      (.dir "B" true (fileNodes fb ++ [.dir "C" true (fileNodes fc)])) = _
  rw [walkEntry_dir mask 1 1 "root/A" "B" _ _ (by decide)]
  show walkEntries mask 1 2 "root/A/B"
      ⟨candsOf mask "root" fr ++ candsOf mask "root/A" fa,
       matchCount mask fr + matchCount mask fa, 0, m2, ["root", "root/A", "root/A/B"]⟩
      (fileNodes fb ++ [.dir "C" true (fileNodes fc)]) = _
  rw [walkEntries_pruned _ _ _ _ _ (by decide)]

/-- Closed form of the part_003 revision B walk on root/A/B/C with
depth limit 1: same candidates and counts as the iterator walk, and
only root and A are ever listed — the directory entry of B already
exceeds the limit, so B is skipped before being opened and C is never
discovered. -/
theorem runWalkB_depthTree (mask : String) (fr fa fb fc : List (String × Nat)) :
    runWalkB (depthTree fr fa fb fc) mask 1 "root" =
      ⟨candsOf mask "root" fr ++ candsOf mask "root/A" fa,
       matchCount mask fr + matchCount mask fa, 0, 1, ["root", "root/A"]⟩ := by
  have hA : "root" ++ "/" ++ "A" = "root/A" := rfl
  have hB : "root/A" ++ "/" ++ "B" = "root/A/B" := rfl
  show walkDirB mask 1 0 "root" ⟨[], 0, 0, 0, []⟩
      (.dir "root" true (fileNodes fr ++ [.dir "A" true
        (fileNodes fa ++ [.dir "B" true
          (fileNodes fb ++ [.dir "C" true (fileNodes fc)])])])) = _
  rw [walkDirB_dir mask 1 0 "root" "root" _ _ (by decide),
    List.foldl_append, foldl_listFileB, foldl_listFileB_dir]
  simp only [hA, hB, List.nil_append, Nat.zero_add, Nat.reduceAdd, max_self, Nat.zero_max]
  rw [walkDirsB_append, walkDirsB_singleton_dir]
  rw [hA, walkDirB_dir mask 1 1 "root/A" "A" _ _ (by decide),
    List.foldl_append, foldl_listFileB, foldl_listFileB_dir]
  simp only [hA, hB, List.nil_append, Nat.zero_add, Nat.reduceAdd, max_self, Nat.zero_max]
  rw [walkDirsB_append, walkDirsB_singleton_dir]
  rw [hB, walkDirB_pruned _ _ _ _ _ _ (by decide), walkDirsB_files, walkDirsB_files]
  simp

/-- C2.  Depth pruning on root/A/B/C with maxDepth 1, for every mask
and arbitrary readable files in each of the four directories.  In the
part_002 iterator walk every matching regular file directly in the
root and in A is visited — counted and offered, in discovery order —
no file in B (or deeper) is counted or offered, and directory C is
never opened: recursion is disabled at the entries of B, which lie
past the limit, so files there are pruned by skipping descent before
any stat or offer.  The part_003 revision B walk yields the same
candidates and counters and does not even open B, whose own depth
already exceeds the limit, so C is never discovered either. -/
theorem c2_depth_pruning (mask : String) (fr fa fb fc : List (String × Nat)) :
    (∃ m, runWalkIter (depthTree fr fa fb fc) mask 1 "root" =
      ⟨candsOf mask "root" fr ++ candsOf mask "root/A" fa,
       matchCount mask fr + matchCount mask fa, 0, m,
       ["root", "root/A", "root/A/B"]⟩) ∧
    "root/A/B/C" ∉ (runWalkIter (depthTree fr fa fb fc) mask 1 "root").opened ∧
    runWalkB (depthTree fr fa fb fc) mask 1 "root" =
      ⟨candsOf mask "root" fr ++ candsOf mask "root/A" fa,
       matchCount mask fr + matchCount mask fa, 0, 1, ["root", "root/A"]⟩ ∧
    "root/A/B/C" ∉ (runWalkB (depthTree fr fa fb fc) mask 1 "root").opened := by
  obtain ⟨m, hm⟩ := runWalkIter_depthTree mask fr fa fb fc
  have hb := runWalkB_depthTree mask fr fa fb fc
  refine ⟨⟨m, hm⟩, ?_, hb, ?_⟩
  · rw [hm]
    show "root/A/B/C" ∉ ["root", "root/A", "root/A/B"]
    decide
  · rw [hb]
    show "root/A/B/C" ∉ ["root", "root/A"]
    decide

end CppCliToolbox
